import Mathlib

/-!
Verification development for the Cognitive-State-Estimation repository.

The file shallowly embeds the data-processing pipeline of
`process_data_raw.py` (the driver script that cuts a recorded experiment
video into per-trial tensors with ground-truth labels), the `Statistics`
class of `lib/dataprocessing/statistics.py`, and the spec-described
optical-flow chunk processing of the video handler.  Side effects
(`np.save`, `json.dump`, frame extraction calls) are modelled as an
explicit event trace; the abort-on-exception behaviour of the script is
modelled by the driver returning the trace emitted so far together with
an optional error.
-/

namespace CSE

/-- Model of `os.path.join` for one component. -/
def pathJoin (a b : String) : String := a ++ "/" ++ b

/-- Model of the extension component of `os.path.splitext`: the suffix of
the path starting at the last `'.'` of its final component, or `""` when
that component has no dot. -/
def extOf (s : String) : String :=
  let rev := s.data.reverse
  let pre := rev.takeWhile (fun c => c ≠ '.' ∧ c ≠ '/')
  if (rev.drop pre.length).head? = some '.' then
    String.mk ('.' :: pre.reverse)
  else ""

/-- One trial record from the experiment log: start/end timestamps and the
recorded score, as read from `trial['start']`, `trial['end']`,
`trial['score']`. -/
structure Trial where
  start : ℚ
  «end» : ℚ
  score : ℚ
deriving DecidableEq

/-- Modelled from the spec: `lib.dataprocessing.ExperimentData` (the
module `experimentdata.py` is not under `src/`).  Per the spec,
`get_trials(n)` returns the trials for level `n` in the log's native
order and `get_video_lecture_timestamps()` returns the lecture window
`(start, end)`. -/
structure ExperimentData where
  get_trials : Nat → List Trial
  lecture_start : ℚ
  lecture_end : ℚ

/-- Modelled from the spec: `ExperimentData.get_video_lecture_timestamps`. -/
def ExperimentData.get_video_lecture_timestamps (ed : ExperimentData) : ℚ × ℚ :=
  (ed.lecture_start, ed.lecture_end)

/-- The three processing methods accepted by the CLI
(`choices=['eye', 'face', 'opticalflow']`). -/
inductive Method where
  | eye
  | face
  | opticalflow
deriving DecidableEq

/-- The method's command-line string. -/
def methodStr : Method → String
  | .eye => "eye"
  | .face => "face"
  | .opticalflow => "opticalflow"

/-- Modelled from the spec: `lib.dataprocessing.VideoHandler` (the module
is not under `src/`).  Only its interface is needed by the driver: each
processing method maps a time window and crop size either to a stacked
frame tensor of type `T` or to an error (e.g. an out-of-range trial
window). -/
structure VideoHandler (T : Type) where
  get_frames : ℚ → ℚ → Int → Except String T
  get_eye_frames : ℚ → ℚ → Int → Except String T
  get_optical_flow_frames : ℚ → ℚ → Int → Except String T

/-- The `method_functions` dispatch table of `process_data_raw.py`. -/
def method_functions {T : Type} (vh : VideoHandler T) : Method → (ℚ → ℚ → Int → Except String T)
  | .face => vh.get_frames
  | .eye => vh.get_eye_frames
  | .opticalflow => vh.get_optical_flow_frames

/-- One observable side effect of the driver script: a frame-extraction
call (`process_frames(...)`, tagged with the loop's level `n` and trial
index `i` in trial mode), an `np.save` of a tensor, or a `json.dump` of a
ground-truth label `{n, score}`. -/
inductive Event (T : Type) where
  | extractTrial (n i : Nat) (tstart tend : ℚ) (crop : Int)
  | extractLecture (tstart tend : ℚ) (crop : Int)
  | saveNpy (path : String) (data : T)
  | saveJson (path : String) (n : Nat) (score : ℚ)
deriving DecidableEq

/-- Base name of a trial output file: `'{}-{}-{}'.format(n, i, method)`. -/
def trialName (n i : Nat) (method : Method) : String :=
  toString n ++ "-" ++ toString i ++ "-" ++ methodStr method

/-- Output path (without extension) for trial `(n, i)`:
`os.path.join(output_path, participant, '{}-{}-{}'.format(n, i, method))`. -/
def trialOut (output_path participant : String) (n i : Nat) (method : Method) : String :=
  pathJoin (pathJoin output_path participant) (trialName n i method)

/-- Base name of the lecture output file: `'{}_lecture_video'.format(method)`. -/
def lectureName (method : Method) : String := methodStr method ++ "_lecture_video"

/-- Events of the body of the trial loop for one trial: the
`process_frames` call followed, on success, by `np.save` of the frames
and `json.dump` of `{'n': n, 'score': trial['score']}`; on failure the
raised exception is returned. -/
def trialEvents {T : Type} (output_path participant : String) (method : Method)
    (cropsize : Int) (process_frames : ℚ → ℚ → Int → Except String T)
    (n i : Nat) (trial : Trial) : List (Event T) × Option String :=
  match process_frames trial.start trial.«end» cropsize with
  | .error e => ([.extractTrial n i trial.start trial.«end» cropsize], some e)
  | .ok frames =>
      let out := trialOut output_path participant n i method
      ([.extractTrial n i trial.start trial.«end» cropsize,
        .saveNpy (out ++ ".npy") frames,
        .saveJson (out ++ ".json") n trial.score], none)

/-- Runs a list of enumerated trials in order.  Because the script's loop
has no exception handler, the first failing trial terminates the run:
its partial events are kept and the error is reported, and no later
trial is processed. -/
def runTrialsAux {T : Type} (f : Nat → Nat → Trial → List (Event T) × Option String) :
    List (Nat × Nat × Trial) → List (Event T) × Option String
  | [] => ([], none)
  | (n, i, t) :: ts =>
    match f n i t with
    | (evs, some e) => (evs, some e)
    | (evs, none) =>
        let rest := runTrialsAux f ts
        (evs ++ rest.1, rest.2)

/-- The iteration order of the nested loops
`for n in range(1, 6): for i, trial in enumerate(exp_data.get_trials(n))`. -/
def trialList (ed : ExperimentData) : List (Nat × Nat × Trial) :=
  (List.range' 1 5).flatMap (fun n => (ed.get_trials n).enum.map (fun p => (n, p.1, p.2)))

/-- The `if not lecture_video` branch of `process_data_raw.py`. -/
def runTrials {T : Type} (output_path participant : String) (method : Method)
    (cropsize : Int) (ed : ExperimentData)
    (process_frames : ℚ → ℚ → Int → Except String T) : List (Event T) × Option String :=
  runTrialsAux (trialEvents output_path participant method cropsize process_frames)
    (trialList ed)

/-- The `else` (lecture-video) branch of `process_data_raw.py`: one
`process_frames` call on the lecture window and, on success, a single
`np.save` with no label file. -/
def runLecture {T : Type} (output_path participant : String) (method : Method)
    (cropsize : Int) (ed : ExperimentData)
    (process_frames : ℚ → ℚ → Int → Except String T) : List (Event T) × Option String :=
  let w := ed.get_video_lecture_timestamps
  match process_frames w.1 w.2 cropsize with
  | .error e => ([.extractLecture w.1 w.2 cropsize], some e)
  | .ok frames =>
      let out := pathJoin (pathJoin output_path participant) (lectureName method)
      ([.extractLecture w.1 w.2 cropsize, .saveNpy (out ++ ".npy") frames], none)

/-! ### The command-line boundary and the module-level script -/

/-- The raw command line as seen by `argparse`: the two positional
arguments and the three optionals (`none` when absent on the command
line).  `crop` is the value after the script's `int(...)` conversion. -/
structure RawArgs where
  processingMethod : String
  experimentData : String
  output : Option String
  crop : Option Int
  lectureVideo : Bool

/-- The processed arguments after parsing and defaulting. -/
structure Args where
  method : Method
  experimentData : String
  output : String
  crop : Int
  lecture_video : Bool

/-- The `choices` list of the `ProcessingMethod` argument. -/
def methodChoices : List String := ["eye", "face", "opticalflow"]

/-- Maps a method string to its `Method`; `none` for a string outside
the `choices` list (on which `argparse` rejects the command line). -/
def parseMethod (s : String) : Option Method :=
  if s = "eye" then some .eye
  else if s = "face" then some .face
  else if s = "opticalflow" then some .opticalflow
  else none

/-- Model of the script's `argparse` configuration: the method is
restricted to `methodChoices`; `--output` defaults to `'.'`, `--crop`
defaults to `64`, `--lecture-video` is a flag defaulting to `False`. -/
def parseArgs (raw : RawArgs) : Except String Args :=
  match parseMethod raw.processingMethod with
  | none => .error "argparse: invalid choice"
  | some m => .ok
      { method := m
        experimentData := raw.experimentData
        output := raw.output.getD "."
        crop := (raw.crop.getD 64)
        lecture_video := raw.lectureVideo }

/-- The environment the script runs against: the filesystem predicates
used by its assertions (`os.path.exists`, `os.path.isdir`,
`os.path.isfile`, `os.path.abspath`), the result of
`dp.util.getExperimentInfo` — modelled from the spec, since `util.py` is
not under `src/`: it yields the log path, the video path and the
participant identifier from the experiment directory — and the
processing objects constructed from those paths. -/
structure Env (T : Type) where
  fsExists : String → Bool
  isdir : String → Bool
  isfile : String → Bool
  abspath : String → String
  exp_json : String
  video_path : String
  participant : String
  exp_data : ExperimentData
  video_handler : VideoHandler T

/-- The module-level body of `process_data_raw.py`: argument parsing and
processing, the assertion checks (a failed `assert` raises before any
frame is extracted or artifact written), method dispatch, and the
trial/lecture branch.  The result is the trace of extraction and write
events together with the error that terminated the run, if any. -/
def script {T : Type} (raw : RawArgs) (env : Env T) : List (Event T) × Option String :=
  match parseArgs raw with
  | .error e => ([], some e)
  | .ok args =>
    let method := args.method
    let exp_data_path := env.abspath args.experimentData
    let output_path := env.abspath args.output
    let cropsize := args.crop
    let lecture_video := args.lecture_video
    if env.fsExists exp_data_path && env.isdir exp_data_path then
      if env.fsExists output_path && env.isdir output_path then
        if cropsize > 0 then
          let exp_json := env.exp_json
          let video_path := env.video_path
          let participant := env.participant
          if env.fsExists video_path && env.isfile video_path
              && (extOf video_path = ".mp4" : Bool) then
            if env.fsExists exp_json && env.isfile exp_json
                && (extOf exp_json = ".json" : Bool) then
              let process_frames := method_functions env.video_handler method
              if !lecture_video then
                runTrials output_path participant method cropsize env.exp_data process_frames
              else
                runLecture output_path participant method cropsize env.exp_data process_frames
            else ([], some "AssertionError")
          else ([], some "AssertionError")
        else ([], some "AssertionError")
      else ([], some "AssertionError")
    else ([], some "AssertionError")

/-! ### Optical flow over a frame chunk -/

/-- Modelled from the spec: `VideoHandler.get_optical_flow_frames`
(the video-handler module is not under `src/`).  Per the spec, the
optical-flow encoder is "applied sequentially across a FrameChunk of
length N, producing N−1 OpticalFlowFrames", one per consecutive frame
pair; `encode` is the per-pair dense-flow HSV encoding. -/
def get_optical_flow_frames {F O : Type} (encode : F → F → O) (chunk : List F) : List O :=
  List.zipWith encode chunk chunk.tail

/-! ### The `Statistics` class of `lib/dataprocessing/statistics.py` -/

/-- Model of `numpy.ndarray.any()` on the stored score matrix: `true`
iff some entry is truthy (nonzero). -/
def npAny (m : List (List ℚ)) : Bool := m.any (fun r => r.any (fun x => x ≠ 0))

/-- The state of a `Statistics` object: its private `__data` matrix,
one row per subject.  The initial value `np.array([False])` is modelled
as the one-entry falsy matrix `[[0]]` (no entry is truthy, which is all
`add_subject_data` inspects of it). -/
structure Statistics where
  data : List (List ℚ)

/-- `Statistics.__init__`: `self.__data = np.array([False])`. -/
def Statistics.init : Statistics := ⟨[[0]]⟩

/-- The row built by `add_subject_data`: a 1×25 zero row into which, for
`n` in `1..5` and `i, trial` in `enumerate(exp_data.get_trials(n))`, the
score is written at index `((n-1)*5)+i`. -/
def buildRow (get_trials : Nat → List Trial) : List ℚ :=
  (List.range' 1 5).foldl
    (fun row n =>
      (get_trials n).enum.foldl
        (fun row p => row.set ((n - 1) * 5 + p.1) p.2.score) row)
    (List.replicate 25 0)

/-- `Statistics.add_subject_data`: builds the subject's score row and
either concatenates it below the stored matrix (when `__data.any()`) or
replaces the stored contents with it. -/
def Statistics.add_subject_data (s : Statistics) (exp_data : ExperimentData) : Statistics :=
  let data := [buildRow exp_data.get_trials]
  if npAny s.data then ⟨s.data ++ data⟩ else ⟨data⟩

/-- Model of `np.mean(row_slice)` along a row: the mean of columns
`(n-1)*5 .. (n-1)*5+4` of a row (dividing by the number of entries the
slice actually has, as `np.mean` does). -/
def levelMean (row : List ℚ) (n : Nat) : ℚ :=
  let s := (row.drop ((n - 1) * 5)).take 5
  s.sum / s.length

/-- `Statistics.average_scores_all_subjects`: starts from a p×1 zero
matrix, appends for each `n` in `1..5` the column of per-row means of
the 5-column slice for level `n`, and returns the result without its
leading zero column (`out[..., 1:]`). -/
def Statistics.average_scores_all_subjects (s : Statistics) : List (List ℚ) :=
  let out : List (List ℚ) := s.data.map (fun _ => [(0 : ℚ)])
  let out := (List.range' 1 5).foldl
    (fun out n =>
      List.zipWith (fun r m => r ++ [m]) out (s.data.map (fun row => levelMean row n)))
    out
  out.map (fun r => r.drop 1)

/-- `Statistics.global_average_scores`:
`np.mean(self.average_scores_all_subjects(), axis=0)`, the column-wise
mean of the per-subject average matrix. -/
def Statistics.global_average_scores (s : Statistics) : List ℚ :=
  let avg := s.average_scores_all_subjects
  (List.range 5).map (fun j => (avg.map (fun r => r.getD j 0)).sum / avg.length)

/-! ### Event classifiers -/

/-- Whether an event is a tensor write (`np.save`). -/
def Event.isSaveNpy {T : Type} : Event T → Bool
  | .saveNpy _ _ => true
  | _ => false

/-- Whether an event is a label write (`json.dump`). -/
def Event.isSaveJson {T : Type} : Event T → Bool
  | .saveJson _ _ _ => true
  | _ => false

/-- Whether an event is a tensor write to the given path. -/
def savesNpyAt {T : Type} (p : String) : Event T → Bool
  | .saveNpy q _ => q = p
  | _ => false

/-! ### Concrete sessions and frame extractors used as test inputs -/

/-- A default trial record. -/
def trial0 : Trial := ⟨0, 0, 0⟩

/-- A trial whose window lies inside a 100-unit video. -/
def okTrial : Trial := ⟨0, 50, 1⟩

/-- A trial whose end timestamp (200) exceeds a 100-unit video. -/
def badTrial : Trial := ⟨0, 200, 1⟩

/-- A well-formed session: 5 trials per level, all scoring 2, all
windows inside the video. -/
def edA : ExperimentData :=
  ⟨fun _ => List.replicate 5 ⟨0, 50, 2⟩, 0, 10⟩

/-- A session identical to `edA` except that level 3's trial 2 has an
out-of-range end timestamp. -/
def edB : ExperimentData :=
  ⟨fun n =>
    if n = 3 then [okTrial, okTrial, badTrial, okTrial, okTrial]
    else List.replicate 5 okTrial, 0, 10⟩

/-- A degenerate session holding a single out-of-range trial. -/
def edW : ExperimentData := ⟨fun n => if n = 1 then [badTrial] else [], 0, 10⟩

/-- A frame extractor that always succeeds. -/
def pfA : ℚ → ℚ → Int → Except String Nat := fun _ _ _ => .ok 3

/-- A frame extractor over a 100-unit video: it raises an out-of-range
error on any window ending after 100. -/
def pfB : ℚ → ℚ → Int → Except String Nat :=
  fun _ tend _ => if tend ≤ 100 then .ok 7 else .error "OutOfRangeError"

/-- A video handler whose three methods all use `pfA`. -/
def vhA : VideoHandler Nat := ⟨pfA, pfA, pfA⟩

/-- A video handler whose three methods all use `pfB`. -/
def vhB : VideoHandler Nat := ⟨pfB, pfB, pfB⟩

/-- A command line: `face /data` with no optionals. -/
def rawW : RawArgs := ⟨"face", "/data", none, none, false⟩

/-- A command line passing `--crop 0`. -/
def rawCrop0 : RawArgs := ⟨"face", "/data", none, some 0, false⟩

/-- A command line with the `--lecture-video` flag set. -/
def rawLecture : RawArgs := ⟨"face", "/data", none, none, true⟩

/-- An environment in which every path exists: all filesystem predicates
hold, the experiment directory yields `/data/video.mp4` and
`/data/log.json`, and the session is `edA` handled by `vhA`. -/
def envW : Env Nat :=
  ⟨fun _ => true, fun _ => true, fun _ => true, id,
   "/data/log.json", "/data/video.mp4", "p1", edA, vhA⟩

/-- A subject whose 25 scores are all zero. -/
def zeroSubject : ExperimentData := ⟨fun _ => List.replicate 5 ⟨0, 1, 0⟩, 0, 1⟩

/-- A subject whose scores are all 1 (nonzero). -/
def statSubject : ExperimentData := ⟨fun _ => List.replicate 5 ⟨0, 1, 1⟩, 0, 1⟩

/-- A statistics state holding one subject whose 25 scores are all 2. -/
def stW : Statistics := ⟨[List.replicate 25 2]⟩

/-- The trial-mode run on session `edB` (trial (3,2) out of range) with
extractor `pfB` over a 100-unit video. -/
def runB : List (Event Nat) × Option String :=
  runTrials "/out" "p1" Method.face 64 edB pfB

/-- The conjunction of the script's five assertion checks for parsed
arguments `a` in environment `env`: the experiment-data and output paths
exist and are directories, the crop size is positive, and the video and
log files yielded by the experiment directory exist, are files, and have
extensions `.mp4` / `.json` respectively. -/
def assertsPass {T : Type} (env : Env T) (a : Args) : Prop :=
  (env.fsExists (env.abspath a.experimentData)
    && env.isdir (env.abspath a.experimentData)) = true
  ∧ (env.fsExists (env.abspath a.output) && env.isdir (env.abspath a.output)) = true
  ∧ a.crop > 0
  ∧ (env.fsExists env.video_path && env.isfile env.video_path
      && (extOf env.video_path = ".mp4" : Bool)) = true
  ∧ (env.fsExists env.exp_json && env.isfile env.exp_json
      && (extOf env.exp_json = ".json" : Bool)) = true

/-! ## Helper lemmas -/

theorem length_five_destruct (l : List Trial) (h : l.length = 5) :
    l = [l.getD 0 trial0, l.getD 1 trial0, l.getD 2 trial0,
         l.getD 3 trial0, l.getD 4 trial0] := by
  match l, h with
  | [a, b, c, d, e], _ => rfl

theorem exists_five (l : List Trial) (h : l.length = 5) :
    ∃ a b c d e, l = [a, b, c, d, e] := by
  match l, h with
  | [a, b, c, d, e], _ => exact ⟨a, b, c, d, e, rfl⟩

theorem buildRow_getD (g : Nat → List Trial)
    (hlen : ∀ m, 1 ≤ m → m ≤ 5 → (g m).length = 5)
    (n i : Nat) (hn1 : 1 ≤ n) (hn5 : n ≤ 5) (hi : i < 5) :
    (buildRow g).getD ((n - 1) * 5 + i) 0 = ((g n).getD i trial0).score := by
  obtain ⟨a0, a1, a2, a3, a4, h1⟩ := exists_five (g 1) (hlen 1 (by norm_num) (by norm_num))
  obtain ⟨b0, b1, b2, b3, b4, h2⟩ := exists_five (g 2) (hlen 2 (by norm_num) (by norm_num))
  obtain ⟨c0, c1, c2, c3, c4, h3⟩ := exists_five (g 3) (hlen 3 (by norm_num) (by norm_num))
  obtain ⟨d0, d1, d2, d3, d4, h4⟩ := exists_five (g 4) (hlen 4 (by norm_num) (by norm_num))
  obtain ⟨e0, e1, e2, e3, e4, h5⟩ := exists_five (g 5) (hlen 5 (by norm_num) (by norm_num))
  have hb : buildRow g =
      [a0.score, a1.score, a2.score, a3.score, a4.score,
       b0.score, b1.score, b2.score, b3.score, b4.score,
       c0.score, c1.score, c2.score, c3.score, c4.score,
       d0.score, d1.score, d2.score, d3.score, d4.score,
       e0.score, e1.score, e2.score, e3.score, e4.score] := by
    unfold buildRow
    have hr : List.range' 1 5 = [1, 2, 3, 4, 5] := rfl
    rw [hr]
    simp only [List.foldl_cons, List.foldl_nil]
    rw [h1, h2, h3, h4, h5]
    simp only [List.enum, List.enumFrom, List.foldl_cons, List.foldl_nil, List.set]
    norm_num [List.set]
  rw [hb]
  interval_cases n <;> interval_cases i <;>
    simp only [h1, h2, h3, h4, h5] <;> rfl

theorem asa_eq (st : Statistics) :
    st.average_scores_all_subjects =
      st.data.map (fun row =>
        [levelMean row 1, levelMean row 2, levelMean row 3,
         levelMean row 4, levelMean row 5]) := by
  obtain ⟨d⟩ := st
  simp only [Statistics.average_scores_all_subjects]
  have hr : List.range' 1 5 = [1, 2, 3, 4, 5] := rfl
  rw [hr]
  simp only [List.foldl_cons, List.foldl_nil]
  induction d with
  | nil => rfl
  | cons r d ih =>
      simp only [List.map_cons, List.zipWith_cons_cons] at ih ⊢
      exact congrArg₂ List.cons (by rfl) ih

theorem levelMean_eq (row : List ℚ) (h : row.length = 25)
    (n : Nat) (hn1 : 1 ≤ n) (hn5 : n ≤ 5) :
    levelMean row n = ((row.drop ((n - 1) * 5)).take 5).sum / 5 := by
  unfold levelMean
  have hl : ((row.drop ((n - 1) * 5)).take 5).length = 5 := by
    rw [List.length_take, List.length_drop, h]
    omega
  simp only []
  rw [hl]
  norm_num

theorem getD_map_of_lt {α β : Type} (f : α → β) (l : List α) (s : Nat)
    (h : s < l.length) (d : β) (d' : α) :
    (l.map f).getD s d = f (l.getD s d') := by
  rw [List.getD_eq_getElem?_getD, List.getD_eq_getElem?_getD, List.getElem?_map,
    List.getElem?_eq_getElem h]
  rfl

theorem add_subject_data_data (s : Statistics) (e : ExperimentData) :
    (s.add_subject_data e).data =
      if npAny s.data then s.data ++ [buildRow e.get_trials]
      else [buildRow e.get_trials] := by
  simp only [Statistics.add_subject_data]
  split <;> rfl

/-! ## Claim C8 -/

/-- C8: `Statistics.add_subject_data` appends the subject's 1×25 score
row to the stored matrix only when the stored matrix has a truthy
(nonzero) entry, and otherwise replaces the stored contents with the new
row; consequently, when the first added subject's 25 scores are all
zero, adding a second subject discards the first subject's row (the
matrix has 1 row after two calls), and the matrix only grows by one row
per call while every previously stored subject has a nonzero score. -/
theorem claim_C8 :
    (∀ (s : Statistics) (e : ExperimentData),
      (s.add_subject_data e).data =
        if npAny s.data then s.data ++ [buildRow e.get_trials]
        else [buildRow e.get_trials])
    ∧ (∀ (s : Statistics) (e : ExperimentData), npAny s.data = true →
        (s.add_subject_data e).data.length = s.data.length + 1)
    ∧ ((Statistics.init.add_subject_data zeroSubject).add_subject_data
        zeroSubject).data.length = 1 := by
  refine ⟨add_subject_data_data, ?_, ?_⟩
  · intro s e h
    rw [add_subject_data_data, if_pos h]
    simp
  · decide

theorem runTrialsAux_all_ok {T : Type}
    (f : Nat → Nat → Trial → List (Event T) × Option String)
    (ts : List (Nat × Nat × Trial))
    (h : ∀ x ∈ ts, (f x.1 x.2.1 x.2.2).2 = none) :
    runTrialsAux f ts = (ts.flatMap (fun x => (f x.1 x.2.1 x.2.2).1), none) := by
  induction ts with
  | nil => rfl
  | cons x ts ih =>
      obtain ⟨n, i, t⟩ := x
      have hx : (f n i t).2 = none := h _ (List.mem_cons_self _ _)
      rcases hfe : f n i t with ⟨evs, err⟩
      rw [hfe] at hx
      simp only at hx
      subst hx
      simp only [runTrialsAux, hfe, List.flatMap_cons]
      rw [ih (fun y hy => h y (List.mem_cons_of_mem _ hy))]

theorem runTrialsAux_abort {T : Type}
    (f : Nat → Nat → Trial → List (Event T) × Option String)
    (ts1 : List (Nat × Nat × Trial)) (x : Nat × Nat × Trial)
    (ts2 : List (Nat × Nat × Trial)) (e : String)
    (h1 : ∀ y ∈ ts1, (f y.1 y.2.1 y.2.2).2 = none)
    (hx : (f x.1 x.2.1 x.2.2).2 = some e) :
    runTrialsAux f (ts1 ++ x :: ts2)
      = (ts1.flatMap (fun y => (f y.1 y.2.1 y.2.2).1)
          ++ (f x.1 x.2.1 x.2.2).1, some e) := by
  induction ts1 with
  | nil =>
      obtain ⟨n, i, t⟩ := x
      rcases hfe : f n i t with ⟨evs, err⟩
      rw [hfe] at hx
      simp only at hx
      subst hx
      simp [runTrialsAux, hfe]
  | cons y ts1 ih =>
      obtain ⟨n, i, t⟩ := y
      have hy : (f n i t).2 = none := h1 _ (List.mem_cons_self _ _)
      rcases hfe : f n i t with ⟨evs, err⟩
      rw [hfe] at hy
      simp only at hy
      subst hy
      simp only [List.cons_append, runTrialsAux, hfe, List.flatMap_cons, List.append_eq]
      rw [ih (fun z hz => h1 z (List.mem_cons_of_mem _ hz))]
      simp [hfe, List.append_assoc]

theorem mem_runTrialsAux {T : Type}
    (f : Nat → Nat → Trial → List (Event T) × Option String)
    (ts : List (Nat × Nat × Trial)) (ev : Event T)
    (h : ev ∈ (runTrialsAux f ts).1) :
    ∃ x ∈ ts, ev ∈ (f x.1 x.2.1 x.2.2).1 := by
  induction ts with
  | nil => simp [runTrialsAux] at h
  | cons x ts ih =>
      obtain ⟨n, i, t⟩ := x
      rcases hfe : f n i t with ⟨evs, err⟩
      cases err with
      | some e =>
          simp only [runTrialsAux, hfe] at h
          exact ⟨(n, i, t), List.mem_cons_self _ _, by rw [hfe]; exact h⟩
      | none =>
          simp only [runTrialsAux, hfe, List.mem_append] at h
          rcases h with h | h
          · exact ⟨(n, i, t), List.mem_cons_self _ _, by rw [hfe]; exact h⟩
          · obtain ⟨y, hy, hev⟩ := ih h
            exact ⟨y, List.mem_cons_of_mem _ hy, hev⟩

theorem mem_trialList (ed : ExperimentData) (x : Nat × Nat × Trial) :
    x ∈ trialList ed
      ↔ (x.1 ∈ List.range' 1 5 ∧ (ed.get_trials x.1)[x.2.1]? = some x.2.2) := by
  obtain ⟨n, i, t⟩ := x
  simp only [trialList, List.mem_flatMap, List.mem_map]
  constructor
  · rintro ⟨m, hm, ⟨j, u⟩, hju, heq⟩
    obtain ⟨rfl, rfl, rfl⟩ := Prod.mk.injEq .. ▸ heq
    exact ⟨hm, List.mem_enum_iff_getElem?.1 hju⟩
  · rintro ⟨hn, hget⟩
    exact ⟨n, hn, (i, t), List.mem_enum_iff_getElem?.2 hget, rfl⟩

theorem trialList_length (ed : ExperimentData)
    (hlen : ∀ m, 1 ≤ m → m ≤ 5 → (ed.get_trials m).length = 5) :
    (trialList ed).length = 25 := by
  have hr : List.range' 1 5 = [1, 2, 3, 4, 5] := rfl
  rw [trialList, List.length_flatMap, hr]
  simp [Function.comp_def,
    hlen 1 (by norm_num) (by norm_num), hlen 2 (by norm_num) (by norm_num),
    hlen 3 (by norm_num) (by norm_num), hlen 4 (by norm_num) (by norm_num),
    hlen 5 (by norm_num) (by norm_num)]

theorem countP_flatMap {α β : Type} (p : β → Bool) (l : List α) (f : α → List β) :
    (l.flatMap f).countP p = (l.map (fun a => (f a).countP p)).sum := by
  induction l with
  | nil => rfl
  | cons a l ih => simp [List.flatMap_cons, List.countP_append, ih]

theorem trialEvents_ok {T : Type} (out part : String) (m : Method) (crop : Int)
    (pf : ℚ → ℚ → Int → Except String T) (n i : Nat) (t : Trial) (d : T)
    (hd : pf t.start t.«end» crop = .ok d) :
    trialEvents out part m crop pf n i t
      = ([.extractTrial n i t.start t.«end» crop,
          .saveNpy (trialOut out part n i m ++ ".npy") d,
          .saveJson (trialOut out part n i m ++ ".json") n t.score], none) := by
  simp [trialEvents, hd]

theorem trialEvents_error {T : Type} (out part : String) (m : Method) (crop : Int)
    (pf : ℚ → ℚ → Int → Except String T) (n i : Nat) (t : Trial) (e : String)
    (he : pf t.start t.«end» crop = .error e) :
    trialEvents out part m crop pf n i t
      = ([.extractTrial n i t.start t.«end» crop], some e) := by
  simp [trialEvents, he]

theorem trialEvents_snd_none {T : Type} (out part : String) (m : Method) (crop : Int)
    (pf : ℚ → ℚ → Int → Except String T) (n i : Nat) (t : Trial)
    (h : (pf t.start t.«end» crop).isOk = true) :
    (trialEvents out part m crop pf n i t).2 = none := by
  rcases hd : pf t.start t.«end» crop with e | d
  · rw [hd] at h; simp [Except.isOk, Except.toBool] at h
  · simp [trialEvents, hd]

/-! ## Claim C9 -/

/-- C9: `Statistics` stores the score of trial index `i` at level `n`
in column `(n-1)*5+i` of the subject's 25-entry row;
`average_scores_all_subjects` on a stored p×25 matrix returns a p×5
matrix whose entry at (subject `s`, level `n`) is the arithmetic mean of
the 5 stored scores in columns `(n-1)*5 .. (n-1)*5+4` of row `s`; and
`global_average_scores` returns the 5-entry mean of that matrix across
subjects. -/
theorem claim_C9 (g : Nat → List Trial)
    (hlen : ∀ m, 1 ≤ m → m ≤ 5 → (g m).length = 5)
    (st : Statistics) (hrows : ∀ row ∈ st.data, row.length = 25)
    (n i s : Nat) (hn1 : 1 ≤ n) (hn5 : n ≤ 5) (hi : i < 5)
    (hs : s < st.data.length) :
    (buildRow g).getD ((n - 1) * 5 + i) 0 = ((g n).getD i trial0).score
    ∧ st.average_scores_all_subjects.length = st.data.length
    ∧ (st.average_scores_all_subjects.getD s []).getD (n - 1) 0
        = (((st.data.getD s []).drop ((n - 1) * 5)).take 5).sum / 5
    ∧ st.global_average_scores.length = 5
    ∧ st.global_average_scores.getD (n - 1) 0
        = (st.average_scores_all_subjects.map (fun r => r.getD (n - 1) 0)).sum
            / st.data.length := by
  have hlenasa : st.average_scores_all_subjects.length = st.data.length := by
    rw [asa_eq, List.length_map]
  refine ⟨buildRow_getD g hlen n i hn1 hn5 hi, hlenasa, ?_, ?_, ?_⟩
  · rw [asa_eq, getD_map_of_lt _ _ _ hs [] []]
    have hrow : (st.data.getD s []).length = 25 := by
      apply hrows
      rw [List.getD_eq_getElem?_getD, List.getElem?_eq_getElem hs]
      exact List.getElem_mem hs
    interval_cases n <;>
      simpa using levelMean_eq (st.data.getD s []) hrow _ (by norm_num) (by norm_num)
  · simp [Statistics.global_average_scores]
  · simp only [Statistics.global_average_scores]
    simp only [hlenasa]
    interval_cases n <;> rfl

/-- Witness for C9: a session with 5 unit-score trials per level and a
one-subject 25-column matrix of 2s instantiate the hypotheses. -/
theorem claim_C9_witness :
    (buildRow statSubject.get_trials).getD ((2 - 1) * 5 + 3) 0
        = ((statSubject.get_trials 2).getD 3 trial0).score
    ∧ stW.average_scores_all_subjects.length = stW.data.length
    ∧ (stW.average_scores_all_subjects.getD 0 []).getD (2 - 1) 0
        = (((stW.data.getD 0 []).drop ((2 - 1) * 5)).take 5).sum / 5
    ∧ stW.global_average_scores.length = 5
    ∧ stW.global_average_scores.getD (2 - 1) 0
        = (stW.average_scores_all_subjects.map (fun r => r.getD (2 - 1) 0)).sum
            / stW.data.length :=
  claim_C9 statSubject.get_trials
    (fun _ _ _ => by simp [statSubject])
    stW (fun row hrow => by
      simp only [stW, List.mem_singleton] at hrow
      subst hrow
      simp)
    2 3 0 (by norm_num) (by norm_num) (by norm_num) (by simp [stW])

/-- Witness for C8: a state holding one subject with nonzero scores
satisfies the growth precondition, and adding another subject appends. -/
theorem claim_C8_witness :
    npAny (Statistics.init.add_subject_data statSubject).data = true ∧
    ((Statistics.init.add_subject_data statSubject).add_subject_data
        zeroSubject).data.length =
      (Statistics.init.add_subject_data statSubject).data.length + 1 :=
  ⟨by decide, claim_C8.2.1 _ zeroSubject (by decide)⟩

/-! ## Claim C2 -/

/-- C2: for a session with 5 valid trials per level (n in 1..5) and a
frame extractor that succeeds on every trial window (a sufficiently long
video), the trial-mode run reports no error and writes exactly 25 tensor
artifacts and 25 label artifacts; the label written for the trial with
level `n` and index `i` carries exactly the fields `n` and `score`, with
`n` that trial's level and `score` that trial's recorded score. -/
theorem claim_C2 {T : Type} (out part : String) (m : Method) (crop : Int)
    (ed : ExperimentData) (pf : ℚ → ℚ → Int → Except String T)
    (hlen : ∀ k, 1 ≤ k → k ≤ 5 → (ed.get_trials k).length = 5)
    (hok : ∀ x ∈ trialList ed, (pf x.2.2.start x.2.2.«end» crop).isOk = true)
    (n i : Nat) (hn1 : 1 ≤ n) (hn5 : n ≤ 5) (hi : i < 5) :
    (runTrials out part m crop ed pf).2 = none
    ∧ (runTrials out part m crop ed pf).1.countP Event.isSaveNpy = 25
    ∧ (runTrials out part m crop ed pf).1.countP Event.isSaveJson = 25
    ∧ Event.saveJson (trialOut out part n i m ++ ".json") n
        ((ed.get_trials n).getD i trial0).score
      ∈ (runTrials out part m crop ed pf).1 := by
  have hnone : ∀ x ∈ trialList ed,
      (trialEvents out part m crop pf x.1 x.2.1 x.2.2).2 = none :=
    fun x hx => trialEvents_snd_none out part m crop pf _ _ _ (hok x hx)
  have hrun := runTrialsAux_all_ok
    (trialEvents out part m crop pf) (trialList ed) hnone
  have hcount : ∀ (p : Event T → Bool),
      (∀ x ∈ trialList ed,
        ((trialEvents out part m crop pf x.1 x.2.1 x.2.2).1.countP p) = 1) →
      (runTrials out part m crop ed pf).1.countP p = 25 := by
    intro p hone
    rw [runTrials, hrun]
    simp only [countP_flatMap]
    rw [List.map_congr_left hone, List.map_const', List.sum_replicate,
      trialList_length ed hlen]
    simp
  have hmem : (n, i, (ed.get_trials n).getD i trial0) ∈ trialList ed := by
    rw [mem_trialList]
    constructor
    · rw [List.mem_range']
      exact ⟨n - 1, by omega, by omega⟩
    · have hilen : i < (ed.get_trials n).length := by rw [hlen n hn1 hn5]; exact hi
      rw [List.getD_eq_getElem?_getD, List.getElem?_eq_getElem hilen]
      simp
  refine ⟨by rw [runTrials, hrun], ?_, ?_, ?_⟩
  · refine hcount _ (fun x hx => ?_)
    obtain ⟨d, hd⟩ : ∃ d, pf x.2.2.start x.2.2.«end» crop = .ok d := by
      rcases he : pf x.2.2.start x.2.2.«end» crop with e | d
      · have := hok x hx; rw [he] at this; simp [Except.isOk, Except.toBool] at this
      · exact ⟨d, rfl⟩
    rw [trialEvents_ok out part m crop pf _ _ _ d hd]
    rfl
  · refine hcount _ (fun x hx => ?_)
    obtain ⟨d, hd⟩ : ∃ d, pf x.2.2.start x.2.2.«end» crop = .ok d := by
      rcases he : pf x.2.2.start x.2.2.«end» crop with e | d
      · have := hok x hx; rw [he] at this; simp [Except.isOk, Except.toBool] at this
      · exact ⟨d, rfl⟩
    rw [trialEvents_ok out part m crop pf _ _ _ d hd]
    rfl
  · rw [runTrials, hrun]
    simp only [List.mem_flatMap]
    refine ⟨(n, i, (ed.get_trials n).getD i trial0), hmem, ?_⟩
    obtain ⟨d, hd⟩ : ∃ d,
        pf ((ed.get_trials n).getD i trial0).start
          ((ed.get_trials n).getD i trial0).«end» crop = .ok d := by
      rcases he : pf ((ed.get_trials n).getD i trial0).start
          ((ed.get_trials n).getD i trial0).«end» crop with e | d
      · have := hok _ hmem; rw [he] at this; simp [Except.isOk, Except.toBool] at this
      · exact ⟨d, rfl⟩
    rw [trialEvents_ok out part m crop pf _ _ _ d hd]
    simp

/-- Witness for C2: session `edA` (5 trials per level, score 2) with the
always-succeeding extractor `pfA` satisfies the hypotheses at level 2,
index 3. -/
theorem claim_C2_witness :
    (runTrials "/out" "p1" Method.face 64 edA pfA).2 = none
    ∧ (runTrials "/out" "p1" Method.face 64 edA pfA).1.countP Event.isSaveNpy = 25
    ∧ (runTrials "/out" "p1" Method.face 64 edA pfA).1.countP Event.isSaveJson = 25
    ∧ Event.saveJson (trialOut "/out" "p1" 2 3 Method.face ++ ".json") 2
        ((edA.get_trials 2).getD 3 trial0).score
      ∈ (runTrials "/out" "p1" Method.face 64 edA pfA).1 :=
  claim_C2 "/out" "p1" Method.face 64 edA pfA
    (fun _ _ _ => by simp [edA])
    (fun x _ => by simp [pfA, Except.isOk, Except.toBool])
    2 3 (by norm_num) (by norm_num) (by norm_num)

/-! ## Claim C6 -/

/-- C6: in trial mode (with 5 trials per level and a succeeding
extractor) trials are processed strictly sequentially in the fixed order
level 1..5 and, within a level, index 0..4: the event trace is the
concatenation, in that lexicographic trial order, of each trial's block,
and each trial's block is its extract event followed by its tensor and
label writes — all emitted before the next trial's block begins. -/
theorem claim_C6 {T : Type} (out part : String) (m : Method) (crop : Int)
    (ed : ExperimentData) (pf : ℚ → ℚ → Int → Except String T)
    (hlen : ∀ k, 1 ≤ k → k ≤ 5 → (ed.get_trials k).length = 5)
    (hok : ∀ x ∈ trialList ed, (pf x.2.2.start x.2.2.«end» crop).isOk = true) :
    (runTrials out part m crop ed pf).1
      = (trialList ed).flatMap
          (fun x => (trialEvents out part m crop pf x.1 x.2.1 x.2.2).1)
    ∧ (∀ x ∈ trialList ed, ∃ d, pf x.2.2.start x.2.2.«end» crop = .ok d
        ∧ trialEvents out part m crop pf x.1 x.2.1 x.2.2
          = ([.extractTrial x.1 x.2.1 x.2.2.start x.2.2.«end» crop,
              .saveNpy (trialOut out part x.1 x.2.1 m ++ ".npy") d,
              .saveJson (trialOut out part x.1 x.2.1 m ++ ".json") x.1 x.2.2.score],
             none))
    ∧ (trialList ed).map (fun x => (x.1, x.2.1))
      = [(1, 0), (1, 1), (1, 2), (1, 3), (1, 4),
         (2, 0), (2, 1), (2, 2), (2, 3), (2, 4),
         (3, 0), (3, 1), (3, 2), (3, 3), (3, 4),
         (4, 0), (4, 1), (4, 2), (4, 3), (4, 4),
         (5, 0), (5, 1), (5, 2), (5, 3), (5, 4)] := by
  have hnone : ∀ x ∈ trialList ed,
      (trialEvents out part m crop pf x.1 x.2.1 x.2.2).2 = none :=
    fun x hx => trialEvents_snd_none out part m crop pf _ _ _ (hok x hx)
  refine ⟨?_, ?_, ?_⟩
  · rw [runTrials, runTrialsAux_all_ok _ _ hnone]
  · intro x hx
    obtain ⟨d, hd⟩ : ∃ d, pf x.2.2.start x.2.2.«end» crop = .ok d := by
      rcases he : pf x.2.2.start x.2.2.«end» crop with e | d
      · have := hok x hx; rw [he] at this; simp [Except.isOk, Except.toBool] at this
      · exact ⟨d, rfl⟩
    exact ⟨d, hd, trialEvents_ok out part m crop pf _ _ _ d hd⟩
  · obtain ⟨a0, a1, a2, a3, a4, h1⟩ :=
      exists_five (ed.get_trials 1) (hlen 1 (by norm_num) (by norm_num))
    obtain ⟨b0, b1, b2, b3, b4, h2⟩ :=
      exists_five (ed.get_trials 2) (hlen 2 (by norm_num) (by norm_num))
    obtain ⟨c0, c1, c2, c3, c4, h3⟩ :=
      exists_five (ed.get_trials 3) (hlen 3 (by norm_num) (by norm_num))
    obtain ⟨d0, d1, d2, d3, d4, h4⟩ :=
      exists_five (ed.get_trials 4) (hlen 4 (by norm_num) (by norm_num))
    obtain ⟨e0, e1, e2, e3, e4, h5⟩ :=
      exists_five (ed.get_trials 5) (hlen 5 (by norm_num) (by norm_num))
    have hr : List.range' 1 5 = [1, 2, 3, 4, 5] := rfl
    rw [trialList, hr]
    simp only [List.flatMap_cons, List.flatMap_nil]
    rw [h1, h2, h3, h4, h5]
    rfl

/-- Witness for C6: the hypotheses hold for session `edA` with the
always-succeeding extractor `pfA`. -/
theorem claim_C6_witness :
    (runTrials "/out" "p1" Method.face 64 edA pfA).1
      = (trialList edA).flatMap
          (fun x => (trialEvents "/out" "p1" Method.face 64 pfA x.1 x.2.1 x.2.2).1)
    ∧ (∀ x ∈ trialList edA, ∃ d, pfA x.2.2.start x.2.2.«end» 64 = .ok d
        ∧ trialEvents "/out" "p1" Method.face 64 pfA x.1 x.2.1 x.2.2
          = ([.extractTrial x.1 x.2.1 x.2.2.start x.2.2.«end» 64,
              .saveNpy (trialOut "/out" "p1" x.1 x.2.1 Method.face ++ ".npy") d,
              .saveJson (trialOut "/out" "p1" x.1 x.2.1 Method.face ++ ".json")
                x.1 x.2.2.score],
             none))
    ∧ (trialList edA).map (fun x => (x.1, x.2.1))
      = [(1, 0), (1, 1), (1, 2), (1, 3), (1, 4),
         (2, 0), (2, 1), (2, 2), (2, 3), (2, 4),
         (3, 0), (3, 1), (3, 2), (3, 3), (3, 4),
         (4, 0), (4, 1), (4, 2), (4, 3), (4, 4),
         (5, 0), (5, 1), (5, 2), (5, 3), (5, 4)] :=
  claim_C6 "/out" "p1" Method.face 64 edA pfA
    (fun _ _ _ => by simp [edA])
    (fun x _ => by simp [pfA, Except.isOk, Except.toBool])

/-! ## Claim C4 -/

/-- C4: a lecture-video-mode run (whose lecture-window extraction
succeeds) writes exactly one tensor artifact and no label artifact,
whichever of the three processing methods is dispatched. -/
theorem claim_C4 {T : Type} (out part : String) (m : Method) (crop : Int)
    (ed : ExperimentData) (vh : VideoHandler T) (d : T)
    (hok : method_functions vh m ed.lecture_start ed.lecture_end crop = .ok d) :
    runLecture out part m crop ed (method_functions vh m)
      = ([.extractLecture ed.lecture_start ed.lecture_end crop,
          .saveNpy (pathJoin (pathJoin out part) (lectureName m) ++ ".npy") d], none)
    ∧ (runLecture out part m crop ed (method_functions vh m)).1.countP
        Event.isSaveNpy = 1
    ∧ (runLecture out part m crop ed (method_functions vh m)).1.countP
        Event.isSaveJson = 0 := by
  have h : runLecture out part m crop ed (method_functions vh m)
      = ([.extractLecture ed.lecture_start ed.lecture_end crop,
          .saveNpy (pathJoin (pathJoin out part) (lectureName m) ++ ".npy") d],
         none) := by
    simp [runLecture, ExperimentData.get_video_lecture_timestamps, hok]
  refine ⟨h, ?_, ?_⟩ <;> rw [h]
  · rfl
  · rfl

/-- Witness for C4: the always-succeeding handler `vhA` on session `edA`
in opticalflow mode. -/
theorem claim_C4_witness :
    runLecture "/out" "p1" Method.opticalflow 64 edA
        (method_functions vhA Method.opticalflow)
      = ([.extractLecture edA.lecture_start edA.lecture_end 64,
          .saveNpy (pathJoin (pathJoin "/out" "p1")
            (lectureName Method.opticalflow) ++ ".npy") 3], none)
    ∧ (runLecture "/out" "p1" Method.opticalflow 64 edA
        (method_functions vhA Method.opticalflow)).1.countP Event.isSaveNpy = 1
    ∧ (runLecture "/out" "p1" Method.opticalflow 64 edA
        (method_functions vhA Method.opticalflow)).1.countP Event.isSaveJson = 0 :=
  claim_C4 "/out" "p1" Method.opticalflow 64 edA vhA 3
    (by simp [method_functions, vhA, pfA])

/-! ## Claim C3 -/

/-- C3: applying the optical-flow processing to a frame chunk of length
N ≥ 2 yields exactly N−1 optical-flow frames, the k-th one computed from
the consecutive frame pair (k, k+1). -/
theorem claim_C3 {F O : Type} (encode : F → F → O) (chunk : List F) (k : Nat)
    (h2 : 2 ≤ chunk.length) (hk : k + 1 < chunk.length) :
    (get_optical_flow_frames encode chunk).length = chunk.length - 1
    ∧ ∃ a b, chunk[k]? = some a ∧ chunk[k + 1]? = some b
        ∧ (get_optical_flow_frames encode chunk)[k]? = some (encode a b) := by
  have hlen : (get_optical_flow_frames encode chunk).length = chunk.length - 1 := by
    rw [get_optical_flow_frames, List.length_zipWith, List.length_tail]
    omega
  have hka : k < chunk.length := by omega
  have hkt : k < chunk.tail.length := by rw [List.length_tail]; omega
  have ht : chunk.tail[k]? = some chunk[k + 1] := by
    rw [List.getElem?_eq_getElem hkt, List.getElem_tail]
  refine ⟨hlen, chunk[k], chunk[k + 1],
    List.getElem?_eq_getElem hka, List.getElem?_eq_getElem hk, ?_⟩
  rw [get_optical_flow_frames, List.getElem?_zipWith,
    List.getElem?_eq_getElem hka, ht]

/-- Witness for C3: a three-frame chunk paired by `Prod.mk` yields two
flow frames, the second built from frames 1 and 2. -/
theorem claim_C3_witness :
    (get_optical_flow_frames Prod.mk [10, 20, 30]).length = ([10, 20, 30] : List Nat).length - 1
    ∧ ∃ a b, ([10, 20, 30] : List Nat)[1]? = some a ∧ ([10, 20, 30] : List Nat)[2]? = some b
        ∧ (get_optical_flow_frames Prod.mk [10, 20, 30])[1]? = some (a, b) :=
  claim_C3 Prod.mk [10, 20, 30] 1 (by norm_num) (by norm_num)

/-! ## Claim C1 -/

/-- Counterexample to C1 as stated: in session `edB` trial (3,2)'s end
timestamp (200) exceeds the 100-unit video, so extraction raises there;
the error is NOT caught at the trial boundary — the run terminates, only
the 12 trials before the failing one have produced tensor artifacts
(instead of the 24 the claim requires), and in particular the valid
trial (5,4) produced no artifact. -/
theorem claim_C1_counterexample :
    (edB.get_trials 5).length = 5
    ∧ runB.2 = some "OutOfRangeError"
    ∧ runB.1.countP Event.isSaveNpy = 12
    ∧ runB.1.countP
        (savesNpyAt (trialOut "/out" "p1" 5 4 Method.face ++ ".npy")) = 0 := by
  refine ⟨by decide, ?_, ?_, ?_⟩ <;> decide

/-- C1 (amended): an error raised while processing one trial is not
caught: the run terminates at that trial with the error reported; the
trials before it keep their emitted events (including their artifacts),
while the failing trial contributes only its extraction attempt and all
later trials produce nothing. -/
theorem claim_C1_amended {T : Type} (out part : String) (m : Method) (crop : Int)
    (ed : ExperimentData) (pf : ℚ → ℚ → Int → Except String T)
    (ts1 : List (Nat × Nat × Trial)) (x : Nat × Nat × Trial)
    (ts2 : List (Nat × Nat × Trial)) (e : String)
    (hsplit : trialList ed = ts1 ++ x :: ts2)
    (h1 : ∀ y ∈ ts1, (pf y.2.2.start y.2.2.«end» crop).isOk = true)
    (hx : pf x.2.2.start x.2.2.«end» crop = .error e) :
    runTrials out part m crop ed pf
      = (ts1.flatMap (fun y => (trialEvents out part m crop pf y.1 y.2.1 y.2.2).1)
          ++ [.extractTrial x.1 x.2.1 x.2.2.start x.2.2.«end» crop], some e) := by
  rw [runTrials, hsplit]
  rw [runTrialsAux_abort _ ts1 x ts2 e
    (fun y hy => trialEvents_snd_none out part m crop pf _ _ _ (h1 y hy))
    (by rw [trialEvents_error out part m crop pf _ _ _ e hx])]
  rw [trialEvents_error out part m crop pf _ _ _ e hx]

/-- Witness for the amended C1: a session whose only trial is out of
range terminates immediately with only the extraction attempt traced. -/
theorem claim_C1_witness :
    runTrials "/out" "p1" Method.face 64 edW pfB
      = ([Event.extractTrial 1 0 0 200 64], some "OutOfRangeError") := by
  have h := claim_C1_amended "/out" "p1" Method.face 64 edW pfB
    [] (1, 0, badTrial) [] "OutOfRangeError" (by decide)
    (by intro y hy; simp at hy) (by norm_num [pfB, badTrial])
  simpa using h

/-! ## Claim C10 -/

/-- C10: once the command line parses, the run validates the assertion
checks — experiment and output paths are existing directories, the crop
size is positive, the experiment directory yields an existing `.mp4`
video and an existing `.json` log — and any violation aborts the entire
run with no event (no frame extraction, no artifact write) emitted. -/
theorem claim_C10 {T : Type} (raw : RawArgs) (env : Env T) (a : Args)
    (hp : parseArgs raw = .ok a) (hviol : ¬ assertsPass env a) :
    script raw env = ([], some "AssertionError") := by
  simp only [script, hp]
  split_ifs with h1 h2 h3 h4 h5 h6
  · exact absurd ⟨h1, h2, h3, h4, h5⟩ hviol
  · exact absurd ⟨h1, h2, h3, h4, h5⟩ hviol
  all_goals rfl

/-- Witness for C10: in an all-paths-exist environment, passing
`--crop 0` violates the crop assertion and the run aborts with an empty
trace. -/
theorem claim_C10_witness :
    script rawCrop0 envW = (([] : List (Event Nat)), some "AssertionError") :=
  claim_C10 rawCrop0 envW
    ⟨Method.face, "/data", ".", 0, false⟩ (by rfl)
    (by intro h; exact absurd h.2.2.1 (by norm_num))

/-! ## Claim C7 -/

/-- C7: the CLI boundary of the script: parsing succeeds exactly for the
method strings `eye`, `face`, `opticalflow`; the output directory
defaults to `'.'`, the crop size defaults to 64 and the lecture-video
flag to its command-line presence (absent = off); a non-positive crop
size aborts the run before any processing event; and when the checks
pass, the lecture-video flag selects the lecture branch instead of the
trial branch. -/
theorem claim_C7 (T : Type) :
    (∀ raw : RawArgs,
      (∃ a, parseArgs raw = .ok a) ↔ raw.processingMethod ∈ methodChoices)
    ∧ (∀ (raw : RawArgs) (a : Args), parseArgs raw = .ok a →
        (raw.output = none → a.output = ".")
        ∧ (raw.crop = none → a.crop = 64)
        ∧ a.lecture_video = raw.lectureVideo)
    ∧ (∀ (raw : RawArgs) (env : Env T) (a : Args), parseArgs raw = .ok a →
        a.crop ≤ 0 → script raw env = ([], some "AssertionError"))
    ∧ (∀ (raw : RawArgs) (env : Env T) (a : Args), parseArgs raw = .ok a →
        assertsPass env a →
        script raw env
          = if a.lecture_video then
              runLecture (env.abspath a.output) env.participant a.method a.crop
                env.exp_data (method_functions env.video_handler a.method)
            else
              runTrials (env.abspath a.output) env.participant a.method a.crop
                env.exp_data (method_functions env.video_handler a.method)) := by
  refine ⟨?_, ?_, ?_, ?_⟩
  · intro raw
    constructor
    · rintro ⟨a, ha⟩
      by_contra hmem
      simp only [methodChoices, List.mem_cons, List.not_mem_nil, or_false,
        not_or] at hmem
      obtain ⟨he, hf, ho⟩ := hmem
      have hnone : parseMethod raw.processingMethod = none := by
        rw [parseMethod, if_neg he, if_neg hf, if_neg ho]
      simp [parseArgs, hnone] at ha
    · intro hmem
      simp only [methodChoices, List.mem_cons, List.not_mem_nil, or_false] at hmem
      rcases hmem with he | hf | ho
      · exact ⟨⟨Method.eye, raw.experimentData, raw.output.getD ".",
          raw.crop.getD 64, raw.lectureVideo⟩, by simp [parseArgs, parseMethod, he]⟩
      · exact ⟨⟨Method.face, raw.experimentData, raw.output.getD ".",
          raw.crop.getD 64, raw.lectureVideo⟩, by simp [parseArgs, parseMethod, hf]⟩
      · exact ⟨⟨Method.opticalflow, raw.experimentData, raw.output.getD ".",
          raw.crop.getD 64, raw.lectureVideo⟩, by simp [parseArgs, parseMethod, ho]⟩
  · intro raw a ha
    simp only [parseArgs] at ha
    rcases hm : parseMethod raw.processingMethod with _ | m
    · rw [hm] at ha; exact absurd ha (by simp)
    · rw [hm] at ha
      simp only [Except.ok.injEq] at ha
      subst ha
      refine ⟨fun ho => by simp [ho], fun hc => by simp [hc], rfl⟩
  · intro raw env a hp hcrop
    simp only [script, hp]
    split_ifs with h1 h2 h3 h4 h5 h6
    · omega
    · omega
    all_goals rfl
  · intro raw env a hp hpass
    obtain ⟨h1, h2, h3, h4, h5⟩ := hpass
    simp only [script, hp, h1, h2, h4, h5, if_pos h3, if_true]
    cases hl : a.lecture_video <;> simp [hl]

/-- Witness for C7: concrete command lines exercise each hypothesis:
`rawW` parses, `rawCrop0` (crop 0) aborts with an empty trace, and in
the all-paths-exist environment `envW` the parsed `rawW` (flag off)
selects the trial branch. -/
theorem claim_C7_witness :
    ("face" ∈ methodChoices)
    ∧ script rawCrop0 envW = (([] : List (Event Nat)), some "AssertionError")
    ∧ script rawW envW
        = runTrials (envW.abspath ".") envW.participant Method.face 64
            envW.exp_data (method_functions envW.video_handler Method.face) := by
  refine ⟨by decide, ?_, ?_⟩
  · exact (claim_C7 Nat).2.2.1 rawCrop0 envW ⟨Method.face, "/data", ".", 0, false⟩
      (by rfl) (by norm_num)
  · have h := (claim_C7 Nat).2.2.2 rawW envW ⟨Method.face, "/data", ".", 64, false⟩
      (by rfl) (by refine ⟨rfl, rfl, by norm_num, ?_, ?_⟩ <;> decide)
    simpa using h

/-! ## Claim C5 -/

/-- C5: every artifact the script writes is placed under
`output_dir/participant_id/`: tensor paths are
`join(join(output, participant), base) ++ ".npy"` and label paths
likewise with `".json"`, where in trial mode `base` is
`"{n}-{i}-{method}"` for the trial's level `n` and index `i` (and the
label's recorded level equals that `n`), and in lecture mode `base` is
`"{method}_lecture_video"`. -/
theorem claim_C5 {T : Type} (raw : RawArgs) (env : Env T) (a : Args)
    (hp : parseArgs raw = .ok a) :
    (∀ (p : String) (d : T), Event.saveNpy p d ∈ (script raw env).1 →
      ∃ base,
        p = pathJoin (pathJoin (env.abspath a.output) env.participant) base ++ ".npy"
        ∧ ((a.lecture_video = true ∧ base = lectureName a.method)
           ∨ (a.lecture_video = false ∧ ∃ n i, n ∈ List.range' 1 5
               ∧ i < (env.exp_data.get_trials n).length
               ∧ base = trialName n i a.method)))
    ∧ (∀ (p : String) (n : Nat) (score : ℚ),
        Event.saveJson p n score ∈ (script raw env).1 →
      a.lecture_video = false
      ∧ ∃ i, n ∈ List.range' 1 5 ∧ i < (env.exp_data.get_trials n).length
          ∧ p = pathJoin (pathJoin (env.abspath a.output) env.participant)
              (trialName n i a.method) ++ ".json") := by
  simp only [script, hp]
  split_ifs with h1 h2 h3 h4 h5 h6
  · -- trial branch
    have hlv : a.lecture_video = false := by simpa using h6
    constructor
    · rintro p d hmem
      simp only [runTrials] at hmem
      obtain ⟨x, hx, hev⟩ := mem_runTrialsAux _ _ _ hmem
      rcases he : method_functions env.video_handler a.method x.2.2.start
          x.2.2.«end» a.crop with e | dd
      · rw [trialEvents_error _ _ _ _ _ _ _ _ e he] at hev
        simp at hev
      · rw [trialEvents_ok _ _ _ _ _ _ _ _ dd he] at hev
        simp only [List.mem_cons, List.not_mem_nil, or_false] at hev
        rcases hev with hev | hev | hev
        · exact absurd hev (by simp)
        · have hpq : p = trialOut (env.abspath a.output) env.participant
              x.1 x.2.1 a.method ++ ".npy" := by
            injection hev
          have hmemt := (mem_trialList env.exp_data x).1 hx
          have hlt : x.2.1 < (env.exp_data.get_trials x.1).length := by
            have := hmemt.2
            rw [List.getElem?_eq_some] at this
            exact this.1
          exact ⟨trialName x.1 x.2.1 a.method, hpq,
            Or.inr ⟨hlv, x.1, x.2.1, hmemt.1, hlt, rfl⟩⟩
        · exact absurd hev (by simp)
    · rintro p n score hmem
      simp only [runTrials] at hmem
      obtain ⟨x, hx, hev⟩ := mem_runTrialsAux _ _ _ hmem
      rcases he : method_functions env.video_handler a.method x.2.2.start
          x.2.2.«end» a.crop with e | dd
      · rw [trialEvents_error _ _ _ _ _ _ _ _ e he] at hev
        simp at hev
      · rw [trialEvents_ok _ _ _ _ _ _ _ _ dd he] at hev
        simp only [List.mem_cons, List.not_mem_nil, or_false] at hev
        rcases hev with hev | hev | hev
        · exact absurd hev (by simp)
        · exact absurd hev (by simp)
        · have hpq : p = trialOut (env.abspath a.output) env.participant
              x.1 x.2.1 a.method ++ ".json" := by injection hev
          have hn : n = x.1 := by injection hev with h1' h2' h3'
          have hmemt := (mem_trialList env.exp_data x).1 hx
          have hlt : x.2.1 < (env.exp_data.get_trials x.1).length := by
            have := hmemt.2
            rw [List.getElem?_eq_some] at this
            exact this.1
          subst hn
          exact ⟨hlv, x.2.1, hmemt.1, hlt, hpq⟩
  · -- lecture branch
    have hlv : a.lecture_video = true := by simpa using h6
    constructor
    · rintro p d hmem
      rcases he : method_functions env.video_handler a.method
          env.exp_data.lecture_start env.exp_data.lecture_end a.crop with e | dd
      · simp [runLecture, ExperimentData.get_video_lecture_timestamps, he] at hmem
      · simp only [runLecture, ExperimentData.get_video_lecture_timestamps,
          he, List.mem_cons, List.not_mem_nil, or_false] at hmem
        rcases hmem with hmem | hmem
        · exact absurd hmem (by simp)
        · have hpq : p = pathJoin (pathJoin (env.abspath a.output) env.participant)
              (lectureName a.method) ++ ".npy" := by injection hmem
          exact ⟨lectureName a.method, hpq, Or.inl ⟨hlv, rfl⟩⟩
    · rintro p n score hmem
      rcases he : method_functions env.video_handler a.method
          env.exp_data.lecture_start env.exp_data.lecture_end a.crop with e | dd
      · simp [runLecture, ExperimentData.get_video_lecture_timestamps, he] at hmem
      · simp [runLecture, ExperimentData.get_video_lecture_timestamps, he] at hmem
  all_goals
    exact ⟨fun p d h => by simp at h, fun p n s h => by simp at h⟩

/-- Witness for C5: the parsed command line `rawW` instantiates the
hypothesis, so every tensor written by `script rawW envW` lies under
`./p1/` with a trial base name (the flag is off). -/
theorem claim_C5_witness :
    (∀ (p : String) (d : Nat), Event.saveNpy p d ∈ (script rawW envW).1 →
      ∃ base,
        p = pathJoin (pathJoin (envW.abspath ".") envW.participant) base ++ ".npy"
        ∧ ((false = true ∧ base = lectureName Method.face)
           ∨ (false = false ∧ ∃ n i, n ∈ List.range' 1 5
               ∧ i < (envW.exp_data.get_trials n).length
               ∧ base = trialName n i Method.face)))
    ∧ (∀ (p : String) (n : Nat) (score : ℚ),
        Event.saveJson p n score ∈ (script rawW envW).1 →
      false = false
      ∧ ∃ i, n ∈ List.range' 1 5 ∧ i < (envW.exp_data.get_trials n).length
          ∧ p = pathJoin (pathJoin (envW.abspath ".") envW.participant)
              (trialName n i Method.face) ++ ".json") :=
  claim_C5 rawW envW ⟨Method.face, "/data", ".", 64, false⟩ (by rfl)

end CSE
